import Mathlib

set_option maxRecDepth 40000

/-!
Verification of the Tesseract adapter layer (`ocrmypdf/exec/tesseract.py`).

The adapter drives the Tesseract OCR engine as an external subprocess.  The
engine call itself is external; we embed it as an explicit outcome value
(`ExecRes`): the captured stdout on success, the captured combined output on a
non-zero exit (`CalledProcessError.output`), or a timeout.  Everything the
adapter computes from those strings is embedded executably below.

String operations are modelled on `List Char` (Lean's built-in `String`
searching functions are byte-position based and do not reduce in the kernel);
each helper documents the Python string operation it models.  The page-number
resolver (`helpers.page_number`) is an external collaborator and is passed in
as a `Nat`.  Python floats appear only as `float(osd.get('Orientation
confidence', 0))`; we keep the validated literal string rather than a fixed
point of numeric evaluation, with `"0"` standing for the default `float(0)`.
-/

/-- Does `pat` start the list `l`?  Models Python `s.startswith(pat)` at the
head of a character list. -/
def listSW : List Char → List Char → Bool
  | [], _ => true
  | _ :: _, [] => false
  | p :: ps, c :: cs => p == c && listSW ps cs

/-- Is `pat` a contiguous sublist of `l`?  Helper for Python `pat in s`. -/
def containsL (pat : List Char) : List Char → Bool
  | [] => listSW pat []
  | c :: cs => listSW pat (c :: cs) || containsL pat cs

/-- Python `pat in hay` (substring containment). -/
def containsSub (hay pat : String) : Bool := containsL pat.data hay.data

/-- Python `s.startswith(pat)`. -/
def strSW (s pat : String) : Bool := listSW pat.data s.data

/-- Whitespace recognized by Python `str.strip()`. -/
def isWS (c : Char) : Bool :=
  c == ' ' || c == '\t' || c == '\n' || c == '\r' || c == '\x0b' || c == '\x0c'

/-- Strip leading and trailing whitespace from a character list. -/
def trimL (l : List Char) : List Char :=
  ((l.dropWhile isWS).reverse.dropWhile isWS).reverse

/-- Python `s.strip()`. -/
def pyStrip (s : String) : String := String.mk (trimL s.data)

/-- Python `s.lower()` (ASCII case folding suffices for the markers used). -/
def lowerS (s : String) : String := String.mk (s.data.map Char.toLower)

/-- Split a character list at every occurrence of the character `sep`,
keeping empty segments; models Python `s.split(sep)`. -/
def splitChar (sep : Char) : List Char → List (List Char)
  | [] => [[]]
  | c :: cs =>
    let r := splitChar sep cs
    if c = sep then [] :: r
    else
      match r with
      | p :: ps => (c :: p) :: ps
      | [] => [[c]]

/-- Python `s.splitlines()` for `\n`-separated text (`universal_newlines=True`
normalizes the subprocess output to `\n`): split at every newline and drop
the trailing empty segment produced by a terminal newline. -/
def pySplitlines (s : String) : List String :=
  if s.data.isEmpty then []
  else
    let parts := (splitChar '\n' s.data).map String.mk
    if s.data.getLast? = some '\n' then parts.dropLast else parts

/-- Numeric value of a digit list (most significant first). -/
def digitsVal (l : List Char) : Nat := l.foldl (fun a c => a * 10 + (c.toNat - 48)) 0

/-- Python `int(s)` on a string argument: optional sign around a non-empty
digit string after stripping whitespace; `none` models the `ValueError`
raised on anything else. -/
def pyInt? (s : String) : Option Int :=
  let core : List Char → Bool := fun ds => !ds.isEmpty && ds.all Char.isDigit
  match trimL s.data with
  | '-' :: ds => if core ds then some (-(digitsVal ds : Int)) else none
  | '+' :: ds => if core ds then some ((digitsVal ds : Int)) else none
  | ds => if core ds then some ((digitsVal ds : Int)) else none

/-- Digit run with an optional decimal point: `D+`, `D+.D*`, or `D*.D+`. -/
def floatDigitsDot (l : List Char) : Bool :=
  match splitChar '.' l with
  | [a] => !a.isEmpty && a.all Char.isDigit
  | [a, b] => (!a.isEmpty || !b.isEmpty) && a.all Char.isDigit && b.all Char.isDigit
  | _ => false

/-- Signed mantissa for a float literal. -/
def floatMant (l : List Char) : Bool :=
  match l with
  | '-' :: r => floatDigitsDot r
  | '+' :: r => floatDigitsDot r
  | r => floatDigitsDot r

/-- Does `s` parse under Python `float(s)`?  Finite decimal literals with an
optional exponent (the `inf`/`nan` spellings are not modelled; the engine's
confidence field is always a plain decimal). -/
def isFloatLit (s : String) : Bool :=
  let t := (trimL s.data).map Char.toLower
  match splitChar 'e' t with
  | [m] => floatMant m
  | [m, ex] =>
    floatMant m &&
      (match ex with
       | '-' :: ds => !ds.isEmpty && ds.all Char.isDigit
       | '+' :: ds => !ds.isEmpty && ds.all Char.isDigit
       | ds => !ds.isEmpty && ds.all Char.isDigit)
  | _ => false

/-- Outcome of one engine subprocess call (`subprocess.check_output` with
`stderr=STDOUT`): captured stdout, a `CalledProcessError` carrying the
combined output, or a `TimeoutExpired`. -/
inductive ExecRes where
  | ok (stdout : String)
  | err (output : String)
  | timedOut
deriving DecidableEq, Repr

/-- The `OrientationConfidence` named tuple.  `angle` is the clockwise angle;
`confidence` is the validated literal handed to `float(...)`, with `"0"` for
the defaulted `float(0)`. -/
structure OrientationConfidence where
  angle : Int
  confidence : String
deriving DecidableEq, Repr

/-- Severity of a line routed to the logging collaborator. -/
inductive LogLevel where
  | info
  | warning
  | error
deriving DecidableEq, Repr

/-- One message handed to the logging collaborator. -/
structure LogMsg where
  level : LogLevel
  text : String
deriving DecidableEq, Repr

/-- Digit-padding of `"{0:4d}: [tesseract] ".format(page_number(input_file))`:
the page number right-aligned in a 4-wide field, filled with spaces (format
spec `4d`), then the fixed component tag. -/
def fmt4d (n : Nat) : String :=
  let d := (Nat.repr n).data
  String.mk (List.replicate (4 - d.length) ' ' ++ d)

/-- The per-page message tag computed at the top of `tesseract_log_output`
and `page_timedout`. -/
def logPre (page : Nat) : String := fmt4d page ++ ": [tesseract] "

/-- Classification of a single output line by `tesseract_log_output`:
`none` means the line is dropped, otherwise the produced log message. -/
def classifyLine (pre line : String) : Option LogMsg :=
  if strSW line "Tesseract Open Source" then none
  else if strSW line "Warning in pixReadMem" then none
  else if containsSub line "diacritics" then
    some ⟨.warning, pre ++ "lots of diacritics - possibly poor OCR"⟩
  else if strSW line "OSD: Weak margin" then
    some ⟨.warning, pre ++ "unsure about page orientation"⟩
  else if containsSub (lowerS line) "error" || containsSub (lowerS line) "exception" then
    some ⟨.error, pre ++ pyStrip line⟩
  else if containsSub (lowerS line) "warning" then
    some ⟨.warning, pre ++ pyStrip line⟩
  else if containsSub (lowerS line) "read_params_file" then
    some ⟨.error, pre ++ pyStrip line⟩
  else
    some ⟨.info, pre ++ pyStrip line⟩

/-- The `tesseract_log_output` helper: split the captured output into lines
and classify each in order, emitting page-tagged messages. -/
def tesseract_log_output (stdout : String) (page : Nat) : List LogMsg :=
  (pySplitlines stdout).filterMap (classifyLine (logPre page))

/-- The `page_timedout` helper's single warning message. -/
def page_timedout_msg (page : Nat) : LogMsg :=
  ⟨.warning, logPre page ++ " took too long to OCR - skipping"⟩

/-- Key/value pairs parsed by `get_orientation`'s success path: each stripped
line is kept iff `line.split(':', maxsplit=2)` has exactly two parts, which
holds iff the line contains exactly one colon; both parts are stripped.
Later lines overwrite earlier ones in the Python dict, so lookups below take
the last binding. -/
def osdPairs (stdout : String) : List (String × String) :=
  (pySplitlines stdout).filterMap fun line =>
    match splitChar ':' (trimL line.data) with
    | [k, v] => some (String.mk (trimL k), String.mk (trimL v))
    | _ => none

/-- Python `osd.get(key)`: the last binding of `key`, if any. -/
def osdGet (stdout key : String) : Option String :=
  ((osdPairs stdout).reverse.find? (fun p => p.1 == key)).map (·.2)

/-- Python `key in osd`. -/
def osdHas (stdout key : String) : Bool := (osdGet stdout key).isSome

/-- The raw angle `int(osd.get('Orientation in degrees', 0))`: `0` when the
key is absent, otherwise the parsed integer (`none` is the `ValueError`). -/
def rawAngle? (stdout : String) : Option Int :=
  match osdGet stdout "Orientation in degrees" with
  | none => some 0
  | some s => pyInt? s

/-- The confidence literal `float(osd.get('Orientation confidence', 0))`:
`"0"` when the key is absent, otherwise the value when it is a valid float
literal (`none` is the `ValueError`). -/
def confidence? (stdout : String) : Option String :=
  match osdGet stdout "Orientation confidence" with
  | none => some "0"
  | some s => if isFloatLit s then some s else none

/-- Result of one `get_orientation` call: a returned `OrientationConfidence`,
a failed `assert`, a `ValueError` from `int(...)`/`float(...)`, or the
re-raised `CalledProcessError` carrying its output. -/
inductive OrientOutcome where
  | result (oc : OrientationConfidence)
  | assertionError
  | valueError
  | propagate (output : String)
deriving DecidableEq, Repr

/-- The success (`else:`) branch of `get_orientation`: parse the OSD mapping;
read the raw angle from key `Orientation in degrees`; if key `Orientation`
is present (pre-3.04.01 schema) assert `Rotate` absent and convert the
counter-clockwise angle via `-angle % 360`, otherwise assert `Rotate`
present and keep the angle clockwise as reported; then attach confidence. -/
def orientationSuccess (stdout : String) : OrientOutcome :=
  match rawAngle? stdout with
  | none => .valueError
  | some r =>
    let finish : Int → OrientOutcome := fun a =>
      match confidence? stdout with
      | none => .valueError
      | some cf => .result ⟨a, cf⟩
    if osdHas stdout "Orientation" then
      if osdHas stdout "Rotate" then .assertionError
      else finish ((-r) % 360)
    else
      if osdHas stdout "Rotate" then finish r
      else .assertionError

/-- The `get_orientation` function over the engine-call outcome: timeout
returns `(angle=0, confidence=0.0)` silently; a non-zero exit first logs the
classified output, returns `(0, 0)` when it contains the too-few-characters
or image-too-large marker and re-raises otherwise; success parses the OSD
output (the success path does not log). -/
def get_orientation (page : Nat) (res : ExecRes) : OrientOutcome × List LogMsg :=
  match res with
  | .timedOut => (.result ⟨0, "0"⟩, [])
  | .err out =>
    (if containsSub out "Too few characters. Skipping this page" ||
        containsSub out "Image too large"
     then .result ⟨0, "0"⟩
     else .propagate out,
     tesseract_log_output out page)
  | .ok stdout => (orientationSuccess stdout, [])

/-- Lexicographic order on character lists by code point, the order Python
uses for `str` comparison. -/
def listLe : List Char → List Char → Bool
  | [], _ => true
  | _ :: _, [] => false
  | a :: as, b :: bs => if a = b then listLe as bs else decide (a < b)

/-- Python `s >= t` on strings. -/
def pyStrGe (s t : String) : Bool := listLe t.data s.data

/-- The `v4()` capability check: `version() >= '4'` (lexicographic). -/
def v4 (version : String) : Bool := pyStrGe version "4"

/-- The `has_textonly_pdf()` capability check as a function of the probed
version string and, for the `4.00.00alpha` build, the `--print-parameters`
output.  Python returns `True`/`False`/`None`; `None` (modelled as `none`)
falls out of the `4.00.00alpha` branch when the `textonly_pdf` marker is
missing, and is falsy to every caller. -/
def has_textonly_pdf (version params : String) : Option Bool :=
  if version = "4.00.00alpha" then
    if containsSub params "textonly_pdf" then some true else none
  else some (v4 version)

/-- Truthiness of a Python value that is `True`, `False` or `None`. -/
def pyTruthy : Option Bool → Bool
  | none => false
  | some b => b

/-- The `HOCR_TEMPLATE` literal: a minimal hOCR document with one page, one
empty word, and `{0}`/`{1}` placeholders for the page pixel width/height. -/
def HOCR_TEMPLATE : String := "<?xml version=\"1.0\" encoding=\"UTF-8\"?>\n<!DOCTYPE html PUBLIC \"-//W3C//DTD XHTML 1.0 Transitional//EN\"\n    \"http://www.w3.org/TR/xhtml1/DTD/xhtml1-transitional.dtd\">\n<html xmlns=\"http://www.w3.org/1999/xhtml\" xml:lang=\"en\" lang=\"en\">\n <head>\n  <title></title>\n  <meta http-equiv=\"Content-Type\" content=\"text/html; charset=utf-8\" />\n  <meta name='ocr-system' content='tesseract 3.02.02' />\n  <meta name='ocr-capabilities' content='ocr_page ocr_carea ocr_par ocr_line ocrx_word'/>\n </head>\n <body>\n  <div class='ocr_page' id='page_1' title='image \"x.tif\"; bbox 0 0 {0} {1}; ppageno 0'>\n   <div class='ocr_carea' id='block_1_1' title=\"bbox 0 1 {0} {1}\">\n    <p class='ocr_par' dir='ltr' id='par_1' title=\"bbox 0 1 {0} {1}\">\n     <span class='ocr_line' id='line_1' title=\"bbox 0 1 {0} {1}\"><span class='ocrx_word' id='word_1' title=\"bbox 0 1 {0} {1}\"> </span>\n     </span>\n    </p>\n   </div>\n  </div>\n </body>\n</html>"

/-- Replace every `{0}` placeholder by `w` and every `{1}` placeholder by
`h` in one left-to-right pass: the effect of Python `template.format(w, h)`
on a template whose only replacement fields are `{0}` and `{1}`. -/
def fmtScan (w h : List Char) : List Char → List Char
  | [] => []
  | [c] => [c]
  | [c, d] => [c, d]
  | c :: d :: e :: rest =>
    if c == Char.ofNat 123 && e == Char.ofNat 125 && d == '0' then w ++ fmtScan w h rest
    else if c == Char.ofNat 123 && e == Char.ofNat 125 && d == '1' then h ++ fmtScan w h rest
    else c :: fmtScan w h (d :: e :: rest)

/-- The document `_generate_null_hocr` writes: `HOCR_TEMPLATE.format(w, h)`
where `w, h` are the pixel dimensions of the source image (read externally
by PIL). -/
def null_hocr (w h : Nat) : String :=
  String.mk (fmtScan (Nat.repr w).data (Nat.repr h).data HOCR_TEMPLATE.data)

/-- The literal part `title='image "` of the repair pattern
`title='image "([^"]*)";` compiled in `generate_hocr`. -/
def openerL : List Char := "title='image \"".data

/-- The repair replacement `title='image " ";` as characters. -/
def replL : List Char := "title='image \" \";".data

/-- Greedy tail of a regex match attempt after the opener: consume `[^"]*`,
then require `";`.  Returns the captured group and the remainder after the
match, or `none` when the attempt fails (first `"` not followed by `;`, or
no `"` at all). -/
def scanCap : List Char → Option (List Char × List Char)
  | [] => none
  | c :: rest =>
    if c = '"' then
      match rest with
      | ';' :: r2 => some ([], r2)
      | _ => none
    else (scanCap rest).map (fun p => (c :: p.1, p.2))

/-- Regex match attempt for `title='image "([^"]*)";` anchored at the head
of `l`: the 14-character opener must be present, then `scanCap` runs on the
rest.  Backtracking cannot help this pattern (the greedy `[^"]*` stops at
the first `"`, which must then read `";`), so the attempt is deterministic. -/
def matchParts (l : List Char) : Option (List Char × List Char) :=
  if l.take 14 = openerL then scanCap (l.drop 14) else none

/-- Fuelled core of `re.sub` for the repair pattern: scan left to right; on
a match emit the fixed replacement and continue after the consumed text,
otherwise copy one character.  Fuel bounds the number of steps; it is
adequate whenever it is at least the list length. -/
def repairGo : Nat → List Char → List Char
  | 0, _ => []
  | _ + 1, [] => []
  | fuel + 1, c :: cs =>
    match matchParts (c :: cs) with
    | some (_, rem) => replL ++ repairGo fuel rem
    | none => c :: repairGo fuel cs

/-- `re.sub(r"title='image \"([^\"]*)\";", r"title='image \" \";", line)`
on a character list. -/
def repairList (l : List Char) : List Char := repairGo l.length l

/-- The per-line rewrite `generate_hocr` applies to the engine-produced
file: substitute every occurrence of the nested-quoted-filename pattern by
the fixed placeholder. -/
def repair_line (line : String) : String := String.mk (repairList line.data)

/-- Does the anchored match attempt at this position capture exactly the
single-space placeholder (trivially true at non-match positions)? -/
def capOK1 (l : List Char) : Bool :=
  match matchParts l with
  | some (cap, _) => cap == [' ']
  | none => true

/-- Every position of `l` either fails to match the repair pattern or
captures exactly a single space. -/
def capturesOK : List Char → Bool
  | [] => true
  | c :: cs => capOK1 (c :: cs) && capturesOK cs

/-- Does the repair pattern match anywhere in `l`? -/
def hasPatMatch : List Char → Bool
  | [] => false
  | c :: cs => (matchParts (c :: cs)).isSome || hasPatMatch cs

/-- Suffix of `l` immediately after the first occurrence of `pat`, if any. -/
def afterFirst (pat : List Char) : List Char → Option (List Char)
  | [] => none
  | c :: cs =>
    if listSW pat (c :: cs) then some (List.drop pat.length (c :: cs))
    else afterFirst pat cs

/-- Characters strictly before the first occurrence of `stop`. -/
def takeUntil (stop : Char) : List Char → List Char
  | [] => []
  | c :: cs => if c = stop then [] else c :: takeUntil stop cs

/-- The bounding box declared by the first `bbox` attribute of a document:
the text between the first `"; bbox "` and the following `;`.  In the null
hOCR document the first `bbox` belongs to the `ocr_page` element (the only
earlier semicolon, inside `text/html; charset=utf-8`, is not followed by
` bbox `), so this is the declared page bounding box. -/
def pageBBoxStr (doc : String) : Option String :=
  (afterFirst "; bbox ".data doc.data).map (fun r => String.mk (takeUntil ';' r))

/-- Result of one `generate_hocr` call.  `wroteNull` carries the document
written to `output_hocr` by `_generate_null_hocr`; `wroteNormalized` carries
the lines written to `output_hocr` on the success path, each being an
engine-produced line (after the version-dependent suffix rename of the
intermediate `.badxml` file) passed through the filename repair. -/
inductive HocrResult where
  | wroteNull (content : String)
  | configError
  | propagate (output : String)
  | wroteNormalized (outLines : List String)
deriving DecidableEq, Repr

/-- The `generate_hocr` recovery policy over the engine-call outcome, with
`w, h` the source image's pixel dimensions and `engineLines` the lines of
the engine-produced hOCR file (success path only). -/
def generate_hocr (res : ExecRes) (w h : Nat) (engineLines : List String)
    (page : Nat) : HocrResult × List LogMsg :=
  match res with
  | .timedOut => (.wroteNull (null_hocr w h), [page_timedout_msg page])
  | .err out =>
    let logs := tesseract_log_output out page
    if containsSub out "read_params_file: parameter not found" then
      (.configError, logs)
    else if containsSub out "Image too large" then
      (.wroteNull (null_hocr w h), logs)
    else (.propagate out, logs)
  | .ok stdout =>
    (.wroteNormalized (engineLines.map repair_line), tesseract_log_output stdout page)

/-- Filesystem effects issued by `generate_pdf`/`use_skip_page`, in order:
`os.system` of the cleanup filter, `os.rename`, `os.symlink`, and writing a
blank PDF page of the given width/height (PyPDF2 dimensions as rationals). -/
inductive FsEffect where
  | system (cmd : String)
  | rename (src dst : String)
  | symlink (src dst : String)
  | writeBlank (w h : ℚ)
deriving DecidableEq

/-- The `use_skip_page` fallback: when not text-only the output becomes a
symlink of the skip page (a direct alias, not a copy); when text-only a new
blank page with the skip page's media-box dimensions is written. -/
def use_skip_page (text_only : Bool) (skipDims : ℚ × ℚ)
    (skip_pdf output_pdf : String) : List FsEffect :=
  if !text_only then [.symlink skip_pdf output_pdf]
  else [.writeBlank skipDims.1 skipDims.2]

/-- Result of one `generate_pdf` call. -/
inductive PdfOutcome where
  | completed
  | fellBack
  | configError
  | propagate (output : String)
deriving DecidableEq, Repr

/-- The cleanup filter command line built by `generate_pdf`. -/
def textcleaner_cmd (input_image : String) : String :=
  "textcleaner -g -e stretch -f 25 -o 10 -u " ++ input_image ++ " " ++
    input_image ++ "-clean.png"

/-- The `generate_pdf` flow: unconditionally run the cleanup filter over the
source image with `os.system` (whose exit status `_filterExit` is discarded
by the source, hence unused here) and rename its output over the source
image, then invoke the engine and apply the recovery policy.  `skipDims` are
the media-box dimensions of the caller-supplied skip page, read only on the
text-only fallback path. -/
def generate_pdf (input_image skip_pdf output_pdf : String) (text_only : Bool)
    (_filterExit : Int) (skipDims : ℚ × ℚ) (res : ExecRes) (page : Nat) :
    List FsEffect × PdfOutcome × List LogMsg :=
  let pre : List FsEffect :=
    [.system (textcleaner_cmd input_image),
     .rename (input_image ++ "-clean.png") input_image]
  let cleanLog : LogMsg := ⟨.info, "Textcleaning " ++ input_image⟩
  match res with
  | .timedOut =>
    (pre ++ use_skip_page text_only skipDims skip_pdf output_pdf, .fellBack,
     [cleanLog, page_timedout_msg page])
  | .err out =>
    let logs := cleanLog :: tesseract_log_output out page
    if containsSub out "read_params_file: parameter not found" then
      (pre, .configError, logs)
    else if containsSub out "Image too large" then
      (pre ++ use_skip_page text_only skipDims skip_pdf output_pdf, .fellBack, logs)
    else (pre, .propagate out, logs)
  | .ok stdout => (pre, .completed, cleanLog :: tesseract_log_output stdout page)

/-- Specification-side classification table for engine diagnostic lines
(spec 4.3): ordered rules, each a match predicate and an action; `none`
drops the line.  Matching falls through to an `Info` default. -/
def specLogRules : List ((String → Bool) × (String → Option (LogLevel × String))) :=
  [ (fun l => strSW l "Tesseract Open Source", fun _ => none),
    (fun l => strSW l "Warning in pixReadMem", fun _ => none),
    (fun l => containsSub l "diacritics",
      fun _ => some (.warning, "lots of diacritics - possibly poor OCR")),
    (fun l => strSW l "OSD: Weak margin",
      fun _ => some (.warning, "unsure about page orientation")),
    (fun l => containsSub (lowerS l) "error" || containsSub (lowerS l) "exception",
      fun l => some (.error, pyStrip l)),
    (fun l => containsSub (lowerS l) "warning", fun l => some (.warning, pyStrip l)),
    (fun l => containsSub (lowerS l) "read_params_file", fun l => some (.error, pyStrip l)) ]

/-- Run an ordered rule table on a line; unmatched lines become `Info` with
the stripped line text. -/
def runRules : List ((String → Bool) × (String → Option (LogLevel × String))) →
    String → Option (LogLevel × String)
  | [], line => some (.info, pyStrip line)
  | (test, act) :: rest, line => if test line then act line else runRules rest line

/-- Specification-side classifier output: classify each line independently
in order by the rule table, then prefix every emitted line with the page
tag. -/
def spec_log_output (stdout : String) (page : Nat) : List LogMsg :=
  (pySplitlines stdout).filterMap fun line =>
    (runRules specLogRules line).map fun a => ⟨a.1, logPre page ++ a.2⟩

/-- Specification-side text-only-render capability (spec 4.1): supported for
version ≥ 4 (lexicographic) except the `4.00.00alpha` build, which is probed
for the `textonly_pdf` parameter marker; unsupported below 4. -/
def textonly_spec (version params : String) : Bool :=
  if version = "4.00.00alpha" then containsSub params "textonly_pdf"
  else pyStrGe version "4"

/-- Slice of `HOCR_TEMPLATE` before its first semicolon (which sits inside
`text/html; charset=utf-8`, not in a `bbox` attribute). -/
def tplP0 : String := "<?xml version=\"1.0\" encoding=\"UTF-8\"?>\n<!DOCTYPE html PUBLIC \"-//W3C//DTD XHTML 1.0 Transitional//EN\"\n    \"http://www.w3.org/TR/xhtml1/DTD/xhtml1-transitional.dtd\">\n<html xmlns=\"http://www.w3.org/1999/xhtml\" xml:lang=\"en\" lang=\"en\">\n <head>\n  <title></title>\n  <meta http-equiv=\"Content-Type\" content=\"text/html"

/-- Slice of `HOCR_TEMPLATE` strictly between its first semicolon and the
`ocr_page` bbox semicolon; contains no semicolon. -/
def tplP1 : String := " charset=utf-8\" />\n  <meta name='ocr-system' content='tesseract 3.02.02' />\n  <meta name='ocr-capabilities' content='ocr_page ocr_carea ocr_par ocr_line ocrx_word'/>\n </head>\n <body>\n  <div class='ocr_page' id='page_1' title='image \"x.tif\""

/-- Slice of `HOCR_TEMPLATE` after the semicolon that closes the `ocr_page`
bbox attribute (still contains the four inner `bbox 0 1 {0} {1}` fields). -/
def tplRest : String := " ppageno 0'>\n   <div class='ocr_carea' id='block_1_1' title=\"bbox 0 1 {0} {1}\">\n    <p class='ocr_par' dir='ltr' id='par_1' title=\"bbox 0 1 {0} {1}\">\n     <span class='ocr_line' id='line_1' title=\"bbox 0 1 {0} {1}\"><span class='ocrx_word' id='word_1' title=\"bbox 0 1 {0} {1}\"> </span>\n     </span>\n    </p>\n   </div>\n  </div>\n </body>\n</html>"

/-- The formatted tail of the null hOCR document after the `ocr_page` bbox. -/
def nullTail (w h : Nat) : List Char :=
  fmtScan (Nat.repr w).data (Nat.repr h).data tplRest.data

theorem listSW_append (u v : List Char) : listSW u (u ++ v) = true := by
  induction u with
  | nil => rfl
  | cons a as ih => simp [listSW, ih]

theorem strSW_append (a b : String) : strSW (a ++ b) a = true := by
  unfold strSW
  rw [String.data_append]
  exact listSW_append a.data b.data

theorem classifyLine_eq_table (pre line : String) :
    classifyLine pre line =
      (runRules specLogRules line).map fun a => ⟨a.1, pre ++ a.2⟩ := by
  unfold classifyLine specLogRules
  simp only [runRules]
  split_ifs <;> rfl

theorem tesseract_log_output_eq_spec (stdout : String) (page : Nat) :
    tesseract_log_output stdout page = spec_log_output stdout page := by
  unfold tesseract_log_output spec_log_output
  congr 1
  funext line
  exact classifyLine_eq_table (logPre page) line

/-- C5: for every input text, the classifier emits, in original line order,
exactly what the spec's ordered rule table dictates (banner and pixReadMem
lines dropped; diacritics and weak-margin lines become fixed Warnings;
error/exception lines become Error; warning lines become Warning; failed
parameter-file reads become Error; everything else Info), each prefixed with
the page tag; in particular the three example lines classify as Error,
Warning-with-fixed-message, and Info. -/
theorem log_classifier_matches_spec_table (stdout : String) (page : Nat) :
    tesseract_log_output stdout page = spec_log_output stdout page ∧
    tesseract_log_output "Error: read_params_file: parameter not found" 1 =
      [⟨.error, "   1: [tesseract] Error: read_params_file: parameter not found"⟩] ∧
    tesseract_log_output "lots of diacritics in text" 1 =
      [⟨.warning, "   1: [tesseract] lots of diacritics - possibly poor OCR"⟩] ∧
    tesseract_log_output "some unrecognized line" 1 =
      [⟨.info, "   1: [tesseract] some unrecognized line"⟩] :=
  ⟨tesseract_log_output_eq_spec stdout page, by decide, by decide, by decide⟩

/-- C6 counterexample: the page tag produced for page 7 is `"   7: "`-style
(space padded by format spec `4d`), not the zero-padded `"0007"` the claim
states. -/
theorem log_msg_prefix_not_zero_padded_cex :
    tesseract_log_output "a line" 7 = [⟨.info, "   7: [tesseract] a line"⟩] ∧
    strSW "   7: [tesseract] a line" "0007" = false := by decide

/-- C6 amended: every line the classifier emits is prefixed with the page
number right-aligned in a space-padded 4-wide field followed by the fixed
`: [tesseract] ` component tag. -/
theorem log_msgs_prefixed_space_padded (stdout : String) (page : Nat) (m : LogMsg)
    (hm : m ∈ tesseract_log_output stdout page) :
    strSW m.text (logPre page) = true := by
  unfold tesseract_log_output at hm
  obtain ⟨line, _, hcl⟩ := List.mem_filterMap.mp hm
  unfold classifyLine at hcl
  split_ifs at hcl <;>
    first
      | exact Option.noConfusion hcl
      | (injection hcl with hmx; subst hmx; exact strSW_append _ _)

theorem log_msgs_prefixed_space_padded_witness :
    strSW (LogMsg.text ⟨.info, "   7: [tesseract] a line"⟩) (logPre 7) = true :=
  log_msgs_prefixed_space_padded "a line" 7 ⟨.info, "   7: [tesseract] a line"⟩ (by decide)

/-- C7: truthiness of `has_textonly_pdf` agrees with the spec's capability
rule: for the `4.00.00alpha` build the `textonly_pdf` parameter marker
decides support, otherwise the lexicographic `version >= '4'` check does
(so every version below `'4'` is unsupported).  Python returns `None`
(falsy) rather than `False` when the probe misses the marker. -/
theorem has_textonly_pdf_matches_spec (version params : String) :
    pyTruthy (has_textonly_pdf version params) = textonly_spec version params := by
  unfold has_textonly_pdf textonly_spec v4
  by_cases h : version = "4.00.00alpha"
  · rw [if_pos h, if_pos h]
    cases hc : containsSub params "textonly_pdf" <;> simp [hc, pyTruthy]
  · rw [if_neg h, if_neg h]
    rfl

/-- C2: `get_orientation` returns angle 0, confidence 0 on a timeout without
raising; on a non-zero exit it logs the classified diagnostics and returns
(0, 0) when the output carries the too-few-characters or image-too-large
marker, and re-raises the failure (after logging) otherwise. -/
theorem get_orientation_recovery (page : Nat) (out : String) :
    get_orientation page .timedOut = (.result ⟨0, "0"⟩, []) ∧
    ((containsSub out "Too few characters. Skipping this page" ||
      containsSub out "Image too large") = true →
      get_orientation page (.err out) =
        (.result ⟨0, "0"⟩, tesseract_log_output out page)) ∧
    ((containsSub out "Too few characters. Skipping this page" ||
      containsSub out "Image too large") = false →
      get_orientation page (.err out) =
        (.propagate out, tesseract_log_output out page)) := by
  refine ⟨rfl, ?_, ?_⟩ <;> intro h <;> simp [get_orientation, h]

theorem get_orientation_recovery_witness :
    get_orientation 3 .timedOut = (.result ⟨0, "0"⟩, []) ∧
    get_orientation 3 (.err "Image too large") =
      (.result ⟨0, "0"⟩, tesseract_log_output "Image too large" 3) ∧
    get_orientation 3 (.err "boom") =
      (.propagate "boom", tesseract_log_output "boom" 3) :=
  ⟨(get_orientation_recovery 3 "x").1,
   (get_orientation_recovery 3 "Image too large").2.1 (by decide),
   (get_orientation_recovery 3 "boom").2.2 (by decide)⟩

/-- C1 counterexample: on Variant-A output `Orientation: 90` with no
`Rotate` key the code returns angle 0 (the raw angle is read from the key
`Orientation in degrees`, absent here, not from `Orientation`), not the
angle 270 the claim states. -/
theorem get_orientation_variantA_raw_key_cex :
    (get_orientation 1 (.ok "Orientation: 90")).1 = .result ⟨0, "0"⟩ ∧
    (get_orientation 1 (.ok "Orientation: 90")).1 ≠ .result ⟨270, "0"⟩ ∧
    osdHas "Orientation: 90" "Orientation" = true ∧
    osdHas "Orientation: 90" "Rotate" = false := by decide

/-- C1 amended: on a successful run the raw angle comes from key
`Orientation in degrees` (default 0) in both schema variants; when key
`Orientation` is present (Variant A) the key `Rotate` must be absent and the
counter-clockwise raw angle is converted via `(-raw) mod 360`; when
`Orientation` is absent (Variant B) the key `Rotate` must be present and the
raw angle is the clockwise angle; a mixed schema fails the assertion;
confidence is read from `Orientation confidence`, defaulting to 0. -/
theorem get_orientation_success_characterization (page : Nat) (stdout : String)
    (r : Int) (cf : String) (hr : rawAngle? stdout = some r)
    (hc : confidence? stdout = some cf) :
    (get_orientation page (.ok stdout)).1 =
      (if osdHas stdout "Orientation" then
        (if osdHas stdout "Rotate" then .assertionError
         else .result ⟨(-r) % 360, cf⟩)
       else if osdHas stdout "Rotate" then .result ⟨r, cf⟩
       else .assertionError) := by
  cases h1 : osdHas stdout "Orientation" <;> cases h2 : osdHas stdout "Rotate" <;>
    simp [get_orientation, orientationSuccess, hr, hc, h1, h2]

theorem get_orientation_success_characterization_witness :
    (get_orientation 1 (.ok "Orientation: 1\nOrientation in degrees: 270")).1 =
      .result ⟨90, "0"⟩ ∧
    (get_orientation 1
      (.ok "Orientation in degrees: 90\nRotate: 270\nOrientation confidence: 6.75")).1 =
      .result ⟨90, "6.75"⟩ ∧
    (get_orientation 1 (.ok "Orientation: 90\nRotate: 270")).1 = .assertionError :=
  ⟨(get_orientation_success_characterization 1 _ 270 "0" (by decide) (by decide)).trans
      (by decide),
   (get_orientation_success_characterization 1 _ 90 "6.75" (by decide) (by decide)).trans
      (by decide),
   (get_orientation_success_characterization 1 _ 0 "0" (by decide) (by decide)).trans
      (by decide)⟩

/-- C10 counterexample: when the parsed mapping has neither `Orientation`
nor `Rotate` but carries a non-numeric `Orientation in degrees` value, the
call fails with a `ValueError` from `int(...)` (raised before either
assertion is reached), not with an assertion failure as the claim states. -/
theorem orientation_missing_keys_value_error_cex :
    (get_orientation 1 (.ok "Orientation in degrees: x")).1 = .valueError ∧
    OrientOutcome.valueError ≠ OrientOutcome.assertionError ∧
    osdHas "Orientation in degrees: x" "Orientation" = false ∧
    osdHas "Orientation in degrees: x" "Rotate" = false := by decide

/-- C10 amended: on a successful exit whose parsed mapping has neither
variant-signature key, the call fails the assertion provided the raw-angle
read `int(osd.get('Orientation in degrees', 0))` itself succeeds; and the
success path returns an `OrientationConfidence` only when exactly one of the
two signature keys is present. -/
theorem orientation_assertion_characterization (page : Nat) (stdout : String) :
    ((rawAngle? stdout).isSome = true →
      osdHas stdout "Orientation" = false → osdHas stdout "Rotate" = false →
      (get_orientation page (.ok stdout)).1 = .assertionError) ∧
    (∀ oc, (get_orientation page (.ok stdout)).1 = .result oc →
      osdHas stdout "Orientation" ≠ osdHas stdout "Rotate") := by
  constructor
  · intro hr h1 h2
    obtain ⟨r, hr⟩ := Option.isSome_iff_exists.mp hr
    simp [get_orientation, orientationSuccess, hr, h1, h2]
  · intro oc hoc
    simp only [get_orientation] at hoc
    unfold orientationSuccess at hoc
    cases hra : rawAngle? stdout with
    | none => rw [hra] at hoc; exact absurd hoc (by simp)
    | some r =>
      rw [hra] at hoc
      cases h1 : osdHas stdout "Orientation" <;> cases h2 : osdHas stdout "Rotate"
      · rw [h1, h2] at hoc
        simp at hoc
      · decide
      · decide
      · rw [h1, h2] at hoc
        simp at hoc

theorem orientation_assertion_characterization_witness :
    (get_orientation 1 (.ok "")).1 = .assertionError ∧
    osdHas "Orientation in degrees: 90\nRotate: 270" "Orientation" ≠
      osdHas "Orientation in degrees: 90\nRotate: 270" "Rotate" :=
  ⟨(orientation_assertion_characterization 1 "").1 (by decide) (by decide) (by decide),
   (orientation_assertion_characterization 1 "Orientation in degrees: 90\nRotate: 270").2
      ⟨90, "0"⟩ (by decide)⟩

/-- C8: on every `generate_pdf` call the external cleanup filter runs over
the source image and its output is renamed over the source image path before
the engine outcome is even examined; the filter's exit status is never
consulted (the run is invariant in it), so the replacement is issued whether
or not the filter succeeded. -/
theorem generate_pdf_cleanup_unconditional (input_image skip_pdf output_pdf : String)
    (text_only : Bool) (e1 e2 : Int) (skipDims : ℚ × ℚ) (res : ExecRes) (page : Nat) :
    generate_pdf input_image skip_pdf output_pdf text_only e1 skipDims res page =
      generate_pdf input_image skip_pdf output_pdf text_only e2 skipDims res page ∧
    (generate_pdf input_image skip_pdf output_pdf text_only e1 skipDims res page).1.take 2 =
      [.system (textcleaner_cmd input_image),
       .rename (input_image ++ "-clean.png") input_image] := by
  refine ⟨rfl, ?_⟩
  cases res with
  | ok s => rfl
  | timedOut => rfl
  | err o =>
    simp only [generate_pdf]
    split_ifs <;> rfl


/-- C4: `generate_pdf` recovery — on timeout (and, below, on an
image-too-large exit) the fallback is substituted and the call completes:
with `text_only = false` the output path becomes a symlink of the
caller-supplied skip page (an alias, not a copy); with `text_only = true` a
new blank page with exactly the skip page's dimensions is written; a
`read_params_file: parameter not found` exit (checked first) raises the
configuration error; any other non-zero exit is logged and re-raised. -/
theorem generate_pdf_recovery (ii sp op : String) (t : Bool) (fe : Int)
    (dims : ℚ × ℚ) (out : String) (page : Nat) :
    (generate_pdf ii sp op false fe dims .timedOut page).1 =
      [.system (textcleaner_cmd ii), .rename (ii ++ "-clean.png") ii, .symlink sp op] ∧
    (generate_pdf ii sp op true fe dims .timedOut page).1 =
      [.system (textcleaner_cmd ii), .rename (ii ++ "-clean.png") ii,
       .writeBlank dims.1 dims.2] ∧
    (generate_pdf ii sp op t fe dims .timedOut page).2.1 = .fellBack ∧
    (containsSub out "read_params_file: parameter not found" = true →
      generate_pdf ii sp op t fe dims (.err out) page =
        ([.system (textcleaner_cmd ii), .rename (ii ++ "-clean.png") ii], .configError,
         ⟨.info, "Textcleaning " ++ ii⟩ :: tesseract_log_output out page)) ∧
    (containsSub out "read_params_file: parameter not found" = false →
      containsSub out "Image too large" = true →
      (generate_pdf ii sp op t fe dims (.err out) page).1 =
        [.system (textcleaner_cmd ii), .rename (ii ++ "-clean.png") ii] ++
          use_skip_page t dims sp op ∧
      (generate_pdf ii sp op t fe dims (.err out) page).2.1 = .fellBack) ∧
    (containsSub out "read_params_file: parameter not found" = false →
      containsSub out "Image too large" = false →
      generate_pdf ii sp op t fe dims (.err out) page =
        ([.system (textcleaner_cmd ii), .rename (ii ++ "-clean.png") ii], .propagate out,
         ⟨.info, "Textcleaning " ++ ii⟩ :: tesseract_log_output out page)) := by
  refine ⟨rfl, rfl, rfl, ?_, ?_, ?_⟩
  · intro hp
    simp [generate_pdf, hp]
  · intro hp ht
    simp [generate_pdf, hp, ht]
  · intro hp ht
    simp [generate_pdf, hp, ht]

theorem generate_pdf_recovery_witness :
    (generate_pdf "i.png" "s.pdf" "o.pdf" false 0 (612, 792) .timedOut 4).1 =
      [.system (textcleaner_cmd "i.png"), .rename ("i.png" ++ "-clean.png") "i.png",
       .symlink "s.pdf" "o.pdf"] ∧
    (generate_pdf "i.png" "s.pdf" "o.pdf" true 0 (612, 792) .timedOut 4).1 =
      [.system (textcleaner_cmd "i.png"), .rename ("i.png" ++ "-clean.png") "i.png",
       .writeBlank 612 792] ∧
    generate_pdf "i.png" "s.pdf" "o.pdf" true 0 (612, 792)
        (.err "read_params_file: parameter not found") 4 =
      ([.system (textcleaner_cmd "i.png"), .rename ("i.png" ++ "-clean.png") "i.png"],
       .configError,
       ⟨.info, "Textcleaning " ++ "i.png"⟩ ::
         tesseract_log_output "read_params_file: parameter not found" 4) ∧
    (generate_pdf "i.png" "s.pdf" "o.pdf" false 0 (612, 792) (.err "Image too large") 4).2.1 =
      .fellBack ∧
    generate_pdf "i.png" "s.pdf" "o.pdf" false 0 (612, 792) (.err "boom") 4 =
      ([.system (textcleaner_cmd "i.png"), .rename ("i.png" ++ "-clean.png") "i.png"],
       .propagate "boom",
       ⟨.info, "Textcleaning " ++ "i.png"⟩ :: tesseract_log_output "boom" 4) :=
  ⟨(generate_pdf_recovery "i.png" "s.pdf" "o.pdf" false 0 (612, 792) "x" 4).1,
   (generate_pdf_recovery "i.png" "s.pdf" "o.pdf" true 0 (612, 792) "x" 4).2.1,
   (generate_pdf_recovery "i.png" "s.pdf" "o.pdf" true 0 (612, 792)
      "read_params_file: parameter not found" 4).2.2.2.1 (by decide),
   ((generate_pdf_recovery "i.png" "s.pdf" "o.pdf" false 0 (612, 792)
      "Image too large" 4).2.2.2.2.1 (by decide) (by decide)).2,
   (generate_pdf_recovery "i.png" "s.pdf" "o.pdf" false 0 (612, 792)
      "boom" 4).2.2.2.2.2 (by decide) (by decide)⟩

theorem digitChar_digit : ∀ m, m < 10 → (Nat.digitChar m).isDigit = true := by decide

theorem toDigitsCore_digits :
    ∀ (fuel n : Nat) (ds : List Char), (∀ c ∈ ds, c.isDigit = true) →
      ∀ c ∈ Nat.toDigitsCore 10 fuel n ds, c.isDigit = true := by
  intro fuel
  induction fuel with
  | zero =>
    intro n ds h c hc
    exact h c (by simpa [Nat.toDigitsCore] using hc)
  | succ f ih =>
    intro n ds h c hc
    have hd : ∀ x ∈ (Nat.digitChar (n % 10)) :: ds, x.isDigit = true := by
      intro x hx
      rcases List.mem_cons.mp hx with hx | hx
      · subst hx
        exact digitChar_digit _ (Nat.mod_lt _ (by decide))
      · exact h x hx
    simp only [Nat.toDigitsCore] at hc
    split at hc
    · exact hd c hc
    · exact ih (n / 10) _ hd c hc

theorem repr_digits (n : Nat) : ∀ c ∈ (Nat.repr n).data, c.isDigit = true := by
  intro c hc
  have hrepr : (Nat.repr n).data = Nat.toDigitsCore 10 (n + 1) n [] := rfl
  rw [hrepr] at hc
  exact toDigitsCore_digits (n + 1) n [] (by simp) c hc

theorem repr_no_semi (n : Nat) : ∀ c ∈ (Nat.repr n).data, c ≠ ';' := by
  intro c hc he
  subst he
  exact absurd (repr_digits n _ hc) (by decide)

theorem listSW_head_false {p c : Char} (ps : List Char) (cs : List Char)
    (h : c ≠ p) : listSW (p :: ps) (c :: cs) = false := by
  have hb : (p == c) = false := beq_eq_false_iff_ne.mpr (fun hpc => h hpc.symm)
  simp [listSW, hb]

theorem afterFirst_step {pat : List Char} {c : Char} {cs : List Char}
    (h : listSW pat (c :: cs) = false) :
    afterFirst pat (c :: cs) = afterFirst pat cs := by
  simp [afterFirst, h]

theorem afterFirst_skip {pat' : List Char} (u : List Char) (v : List Char)
    (hu : ∀ c ∈ u, c ≠ ';') :
    afterFirst (';' :: pat') (u ++ v) = afterFirst (';' :: pat') v := by
  induction u with
  | nil => rfl
  | cons a as ih =>
    rw [List.cons_append,
        afterFirst_step (listSW_head_false pat' (as ++ v) (hu a (List.mem_cons_self a as)))]
    exact ih (fun c hc => hu c (List.mem_cons_of_mem a hc))

theorem afterFirst_marker_charset (X : List Char) :
    afterFirst (';' :: " bbox ".data) (';' :: (tplP1.data ++ X)) =
      afterFirst (';' :: " bbox ".data) (tplP1.data ++ X) :=
  afterFirst_step (by rfl)

theorem afterFirst_marker_hit (X : List Char) :
    afterFirst (';' :: " bbox ".data)
      (';' :: ' ' :: 'b' :: 'b' :: 'o' :: 'x' :: ' ' :: X) = some X := rfl

theorem takeUntil_cons_ne {c : Char} (h : c ≠ ';') (cs : List Char) :
    takeUntil ';' (c :: cs) = c :: takeUntil ';' cs := by
  simp [takeUntil, h]

theorem takeUntil_semi (cs : List Char) : takeUntil ';' (';' :: cs) = [] := by
  simp [takeUntil]

theorem takeUntil_append (u v : List Char) (hu : ∀ c ∈ u, c ≠ ';') :
    takeUntil ';' (u ++ v) = u ++ takeUntil ';' v := by
  induction u with
  | nil => rfl
  | cons a as ih =>
    rw [List.cons_append, takeUntil_cons_ne (hu a (List.mem_cons_self a as)),
        ih (fun c hc => hu c (List.mem_cons_of_mem a hc)), List.cons_append]

theorem null_hocr_decomp (w h : Nat) :
    (null_hocr w h).data =
      tplP0.data ++ ';' :: (tplP1.data ++ (';' :: ' ' :: 'b' :: 'b' :: 'o' :: 'x' :: ' ' ::
        '0' :: ' ' :: '0' :: ' ' :: ((Nat.repr w).data ++ ' ' :: ((Nat.repr h).data ++
          ';' :: nullTail w h)))) := rfl

theorem null_hocr_page_bbox (w h : Nat) :
    pageBBoxStr (null_hocr w h) = some ("0 0 " ++ Nat.repr w ++ " " ++ Nat.repr h) := by
  unfold pageBBoxStr
  rw [null_hocr_decomp]
  rw [show ("; bbox " : String).data = ';' :: " bbox ".data from rfl]
  rw [afterFirst_skip tplP0.data _ (by decide)]
  rw [afterFirst_marker_charset]
  rw [afterFirst_skip tplP1.data _ (by decide)]
  rw [afterFirst_marker_hit]
  refine congrArg some ?_
  dsimp only
  rw [takeUntil_cons_ne (by decide : ('0' : Char) ≠ ';'),
      takeUntil_cons_ne (by decide : (' ' : Char) ≠ ';'),
      takeUntil_cons_ne (by decide : ('0' : Char) ≠ ';'),
      takeUntil_cons_ne (by decide : (' ' : Char) ≠ ';')]
  rw [takeUntil_append (Nat.repr w).data _ (repr_no_semi w)]
  rw [takeUntil_cons_ne (by decide : (' ' : Char) ≠ ';')]
  rw [takeUntil_append (Nat.repr h).data _ (repr_no_semi h)]
  rw [takeUntil_semi]
  have hlist : ('0' :: ' ' :: '0' :: ' ' ::
      ((Nat.repr w).data ++ ' ' :: ((Nat.repr h).data ++ ([] : List Char)))) =
      ("0 0 " ++ Nat.repr w ++ " " ++ Nat.repr h).data := by
    rw [String.data_append, String.data_append, String.data_append]
    rw [show ("0 0 " : String).data = ['0', ' ', '0', ' '] from rfl,
        show (" " : String).data = [' '] from rfl]
    simp
  exact congrArg String.mk hlist

/-- C3: `generate_hocr` recovery — on timeout (logging the page-timed-out
warning) and on an image-too-large exit, the null hOCR document sized to the
source image is written and the call completes; its declared page bounding
box is exactly `0 0 w h` for the source image's pixel dimensions; a
`read_params_file: parameter not found` exit (checked first) raises
`TesseractConfigError`; any other non-zero exit is logged and re-raised. -/
theorem generate_hocr_recovery (w h : Nat) (engineLines : List String)
    (page : Nat) (out : String) :
    generate_hocr .timedOut w h engineLines page =
      (.wroteNull (null_hocr w h), [page_timedout_msg page]) ∧
    pageBBoxStr (null_hocr w h) = some ("0 0 " ++ Nat.repr w ++ " " ++ Nat.repr h) ∧
    (containsSub out "read_params_file: parameter not found" = true →
      generate_hocr (.err out) w h engineLines page =
        (.configError, tesseract_log_output out page)) ∧
    (containsSub out "read_params_file: parameter not found" = false →
      containsSub out "Image too large" = true →
      generate_hocr (.err out) w h engineLines page =
        (.wroteNull (null_hocr w h), tesseract_log_output out page)) ∧
    (containsSub out "read_params_file: parameter not found" = false →
      containsSub out "Image too large" = false →
      generate_hocr (.err out) w h engineLines page =
        (.propagate out, tesseract_log_output out page)) := by
  refine ⟨rfl, null_hocr_page_bbox w h, ?_, ?_, ?_⟩
  · intro hp
    simp [generate_hocr, hp]
  · intro hp ht
    simp [generate_hocr, hp, ht]
  · intro hp ht
    simp [generate_hocr, hp, ht]

theorem generate_hocr_recovery_witness :
    generate_hocr .timedOut 8 13 ["a"] 2 =
      (.wroteNull (null_hocr 8 13), [page_timedout_msg 2]) ∧
    pageBBoxStr (null_hocr 8 13) = some "0 0 8 13" ∧
    generate_hocr (.err "read_params_file: parameter not found") 8 13 [] 2 =
      (.configError, tesseract_log_output "read_params_file: parameter not found" 2) ∧
    generate_hocr (.err "Image too large") 8 13 [] 2 =
      (.wroteNull (null_hocr 8 13), tesseract_log_output "Image too large" 2) ∧
    generate_hocr (.err "boom") 8 13 [] 2 =
      (.propagate "boom", tesseract_log_output "boom" 2) :=
  ⟨(generate_hocr_recovery 8 13 ["a"] 2 "x").1,
   ((generate_hocr_recovery 8 13 ["a"] 2 "x").2.1).trans (by decide),
   (generate_hocr_recovery 8 13 [] 2
      "read_params_file: parameter not found").2.2.1 (by decide),
   (generate_hocr_recovery 8 13 [] 2 "Image too large").2.2.2.1 (by decide) (by decide),
   (generate_hocr_recovery 8 13 [] 2 "boom").2.2.2.2 (by decide) (by decide)⟩

theorem scanCap_cons_ne {c : Char} (h : c ≠ '"') (l : List Char) :
    scanCap (c :: l) = (scanCap l).map (fun p => (c :: p.1, p.2)) := by
  simp [scanCap, h]

theorem scanCap_quote_semi (r : List Char) : scanCap ('"' :: ';' :: r) = some ([], r) := rfl

theorem scanCap_quote_cons {d : Char} (r : List Char) (hd : d ≠ ';') :
    scanCap ('"' :: d :: r) = none := by
  unfold scanCap
  rw [if_pos rfl]
  split
  · next heq => exact absurd (List.cons.inj heq).1 hd
  · rfl

theorem scanCap_quote_nil : scanCap ['"'] = none := rfl

theorem scanCap_len : ∀ (l : List Char) (p : List Char × List Char),
    scanCap l = some p → p.2.length + 2 ≤ l.length := by
  intro l
  induction l with
  | nil => intro p h; exact Option.noConfusion h
  | cons c cs ih =>
    intro p h
    by_cases hc : c = '"'
    · subst hc
      cases cs with
      | nil => exact Option.noConfusion (scanCap_quote_nil ▸ h)
      | cons d r =>
        by_cases hd : d = ';'
        · subst hd
          rw [scanCap_quote_semi] at h
          injection h with h'
          subst h'
          simp
        · rw [scanCap_quote_cons r hd] at h
          exact Option.noConfusion h
    · rw [scanCap_cons_ne hc] at h
      cases hs : scanCap cs with
      | none => rw [hs] at h; exact Option.noConfusion h
      | some q =>
        rw [hs] at h
        injection h with h'
        subst h'
        have := ih q hs
        simp only [List.length_cons]
        omega

theorem matchParts_inv {l : List Char} {p : List Char × List Char}
    (h : matchParts l = some p) :
    l.take 14 = openerL ∧ scanCap (l.drop 14) = some p := by
  unfold matchParts at h
  by_cases ht : l.take 14 = openerL
  · rw [if_pos ht] at h
    exact ⟨ht, h⟩
  · rw [if_neg ht] at h
    exact Option.noConfusion h

theorem matchParts_len {l : List Char} {cap rem : List Char}
    (h : matchParts (l) = some (cap, rem)) : rem.length + 16 ≤ l.length := by
  obtain ⟨ht, hs⟩ := matchParts_inv h
  have h14 : l.length ≥ 14 := by
    have hlt := congrArg List.length ht
    rw [List.length_take] at hlt
    rw [show openerL.length = 14 from rfl] at hlt
    omega
  have := scanCap_len (l.drop 14) (cap, rem) hs
  simp only [List.length_drop] at this
  omega

theorem repairGo_congr : ∀ (f g : Nat) (l : List Char),
    l.length ≤ f → l.length ≤ g → repairGo f l = repairGo g l := by
  intro f
  induction f with
  | zero =>
    intro g l hf _
    have : l = [] := List.length_eq_zero.mp (Nat.le_zero.mp hf)
    subst this
    cases g <;> rfl
  | succ k ih =>
    intro g l hf hg
    cases l with
    | nil => cases g <;> rfl
    | cons c cs =>
      cases g with
      | zero => exact absurd hg (by simp)
      | succ g' =>
        cases m : matchParts (c :: cs) with
        | none =>
          simp only [repairGo, m]
          congr 1
          simp only [List.length_cons] at hf hg
          exact ih g' cs (by omega) (by omega)
        | some p =>
          obtain ⟨cap, rem⟩ := p
          simp only [repairGo, m]
          congr 1
          have hlen := matchParts_len m
          simp only [List.length_cons] at hf hg hlen
          exact ih g' rem (by omega) (by omega)

theorem repairList_cons_match {c : Char} {cs cap rem : List Char}
    (m : matchParts (c :: cs) = some (cap, rem)) :
    repairList (c :: cs) = replL ++ repairList rem := by
  have hlen := matchParts_len m
  simp only [List.length_cons] at hlen
  show repairGo (c :: cs).length (c :: cs) = _
  simp only [List.length_cons, repairGo, m]
  congr 1
  exact repairGo_congr cs.length rem.length rem (by omega) (le_refl _)

theorem repairList_cons_nomatch {c : Char} {cs : List Char}
    (m : matchParts (c :: cs) = none) :
    repairList (c :: cs) = c :: repairList cs := by
  show repairGo (c :: cs).length (c :: cs) = _
  simp only [List.length_cons, repairGo, m]
  rfl

theorem scanCap_none_swap : ∀ (y Z W : List Char), W.head? ≠ some ';' →
    scanCap (y ++ '"' :: Z) = none → scanCap (y ++ '"' :: W) = none := by
  intro y
  induction y with
  | nil =>
    intro Z W hW _
    cases W with
    | nil => exact scanCap_quote_nil
    | cons d r =>
      have hd : d ≠ ';' := fun hd => hW (by simp [hd])
      exact scanCap_quote_cons r hd
  | cons c y' ih =>
    intro Z W hW hZ
    rw [List.cons_append] at hZ ⊢
    by_cases hc : c = '"'
    · subst hc
      cases y' with
      | nil =>
        exact scanCap_quote_cons _ (by decide)
      | cons e y'' =>
        by_cases he : e = ';'
        · subst he
          rw [List.cons_append, scanCap_quote_semi] at hZ
          exact Option.noConfusion hZ
        · rw [List.cons_append]
          exact scanCap_quote_cons _ he
    · rw [scanCap_cons_ne hc] at hZ ⊢
      rw [Option.map_eq_none'] at hZ ⊢
      exact ih Z W hW hZ

theorem take14_pair (u A B : List Char) :
    (u ++ (openerL ++ A)).take 14 = (u ++ (openerL ++ B)).take 14 := by
  have e : ∀ C : List Char,
      (u ++ (openerL ++ C)).take 14 = u.take 14 ++ List.take (14 - u.length) openerL := by
    intro C
    rw [List.take_append_eq_append_take, List.take_append_eq_append_take]
    have hz : 14 - u.length - openerL.length = 0 := by
      rw [show openerL.length = 14 from rfl]
      omega
    rw [hz, List.take_zero, List.append_nil]
  rw [e A, e B]

theorem drop14_append (u A : List Char) :
    (u ++ (openerL ++ A)).drop 14 =
      u.drop 14 ++ (openerL.drop (14 - u.length) ++ A) := by
  rw [List.drop_append_eq_append_drop, List.drop_append_eq_append_drop]
  have h14 : openerL.length = 14 := rfl
  have hz : 14 - u.length - openerL.length = 0 := by
    rw [show openerL.length = 14 from rfl]
    omega
  rw [hz, List.drop_zero]

theorem openerL_drop_quote (j : Nat) (hj : j ≤ 13) :
    ∃ qf : List Char, openerL.drop j = qf ++ ['"'] := by
  refine ⟨(openerL.drop j).dropLast, ?_⟩
  interval_cases j <;> decide

theorem key_some (pre l X cap rem : List Char)
    (hm : matchParts l = some (cap, rem))
    (hp : matchParts (pre ++ l) = none) :
    matchParts (pre ++ (replL ++ X)) = none := by
  cases pre with
  | nil =>
    rw [List.nil_append] at hp
    rw [hm] at hp
    exact Option.noConfusion hp
  | cons p0 pre' =>
    have hl14 : l.take 14 = openerL := (matchParts_inv hm).1
    have hdec : l = openerL ++ l.drop 14 := by
      conv_lhs => rw [← List.take_append_drop 14 l]
      rw [hl14]
    rw [hdec] at hp
    rw [show replL ++ X = openerL ++ (' ' :: '"' :: ';' :: X) from rfl]
    have htake := take14_pair (p0 :: pre') (l.drop 14) (' ' :: '"' :: ';' :: X)
    unfold matchParts at hp ⊢
    by_cases hcond : ((p0 :: pre') ++ (openerL ++ l.drop 14)).take 14 = openerL
    · rw [if_pos hcond] at hp
      rw [if_pos (htake ▸ hcond)]
      rw [drop14_append] at hp
      rw [drop14_append]
      obtain ⟨qf, hqf⟩ := openerL_drop_quote (14 - (p0 :: pre').length)
        (by simp only [List.length_cons]; omega)
      rw [hqf] at hp ⊢
      have hre1 : ∀ T : List Char,
          (p0 :: pre').drop 14 ++ ((qf ++ ['"']) ++ T) =
            ((p0 :: pre').drop 14 ++ qf) ++ ('"' :: T) := by
        intro T
        simp [List.append_assoc]
      rw [hre1] at hp
      rw [hre1]
      exact scanCap_none_swap _ _ _ (by simp) hp
    · rw [if_neg hcond] at hp
      rw [if_neg (fun hB => hcond (htake.trans hB))]

theorem repair_M : ∀ (n : Nat) (l : List Char), l.length ≤ n → ∀ pre : List Char,
    matchParts (pre ++ l) = none → matchParts (pre ++ repairList l) = none := by
  intro n
  induction n with
  | zero =>
    intro l hl pre h
    have : l = [] := List.length_eq_zero.mp (Nat.le_zero.mp hl)
    subst this
    exact h
  | succ k ih =>
    intro l hl pre h
    cases l with
    | nil => exact h
    | cons c cs =>
      simp only [List.length_cons] at hl
      cases m : matchParts (c :: cs) with
      | none =>
        rw [repairList_cons_nomatch m]
        have h' : matchParts ((pre ++ [c]) ++ cs) = none := by
          rw [List.append_assoc]
          simpa using h
        have hres := ih cs (by omega) (pre ++ [c]) h'
        rw [List.append_assoc] at hres
        simpa using hres
      | some p =>
        obtain ⟨cap, rem⟩ := p
        rw [repairList_cons_match m]
        exact key_some pre (c :: cs) (repairList rem) cap rem m h

theorem capOK1_of_none {l : List Char} (h : matchParts l = none) : capOK1 l = true := by
  simp [capOK1, h]

theorem capturesOK_repl (X : List Char) : capturesOK (replL ++ X) = capturesOK X := rfl

theorem repair_capturesOK : ∀ (n : Nat) (l : List Char), l.length ≤ n →
    capturesOK (repairList l) = true := by
  intro n
  induction n with
  | zero =>
    intro l hl
    have : l = [] := List.length_eq_zero.mp (Nat.le_zero.mp hl)
    subst this
    rfl
  | succ k ih =>
    intro l hl
    cases l with
    | nil => rfl
    | cons c cs =>
      simp only [List.length_cons] at hl
      cases m : matchParts (c :: cs) with
      | none =>
        rw [repairList_cons_nomatch m]
        have h1 : matchParts ([c] ++ repairList cs) = none := by
          have := repair_M k cs (by omega) [c] (by simpa using m)
          simpa using this
        show (capOK1 (c :: repairList cs) && capturesOK (repairList cs)) = true
        rw [capOK1_of_none (by simpa using h1), ih cs (by omega)]
        rfl
      | some p =>
        obtain ⟨cap, rem⟩ := p
        have hlen := matchParts_len m
        simp only [List.length_cons] at hlen
        rw [repairList_cons_match m, capturesOK_repl]
        exact ih rem (by omega)

/-- C9 counterexample: the repair replaces the embedded filename with the
single-space placeholder, but the placeholder itself still matches the
nested-quoted-filename pattern, so the normalized line does contain an
occurrence of the pattern, contrary to the claim's headline. -/
theorem repair_placeholder_still_matches_cex :
    (generate_hocr (.ok "")
        8 8 ["  <div class='ocr_page' id='page_1' title='image \"alpha.tif\"; bbox 0 0 8 8; ppageno 0'>"] 1).1 =
      .wroteNormalized
        ["  <div class='ocr_page' id='page_1' title='image \" \"; bbox 0 0 8 8; ppageno 0'>"] ∧
    hasPatMatch
      ("  <div class='ocr_page' id='page_1' title='image \" \"; bbox 0 0 8 8; ppageno 0'>" : String).data =
      true := by decide

/-- C9 amended: after a successful `generate_hocr` run, every line of the
normalized document is clean up to the placeholder: at every position of
every output line, the nested-quoted-filename pattern either fails to match
or captures exactly the single-space placeholder — so no engine-embedded
source-filename substring survives inside the pattern. -/
theorem generate_hocr_normalized_placeholder (stdout : String) (w h : Nat)
    (engineLines : List String) (page : Nat) (outLines : List String)
    (hres : (generate_hocr (.ok stdout) w h engineLines page).1 =
      .wroteNormalized outLines)
    (line : String) (hline : line ∈ outLines) :
    capturesOK line.data = true := by
  simp only [generate_hocr] at hres
  injection hres with hres
  subst hres
  obtain ⟨src, _, hsrc⟩ := List.mem_map.mp hline
  subst hsrc
  exact repair_capturesOK src.data.length (src.data) (le_refl _)

theorem generate_hocr_normalized_placeholder_witness :
    capturesOK
      ("  <div class='ocr_page' id='page_1' title='image \" \"; bbox 0 0 8 8; ppageno 0'>" : String).data =
      true :=
  generate_hocr_normalized_placeholder "" 8 8
    ["  <div class='ocr_page' id='page_1' title='image \"alpha.tif\"; bbox 0 0 8 8; ppageno 0'>"]
    1 _ rfl _ (by decide)
